import Mathlib

/-!
Verification of the behavioral specification of the WCAG accessibility demo
script (src/script.js) against a shallow embedding of its three modules:
the modal focus trap, the form validator and the sortable table.

Conventions of the embedding:
  * JavaScript strings are Lean `String`; `String.prototype.trim` is `jsTrim`
    (Unicode whitespace is modelled by `Char.isWhitespace`, which covers all
    characters occurring on this page).
  * `parseFloat` is `parseFloat` below, returning `Option DecNum`: `none`
    models `NaN`, `some x` a finite numeric value represented as an exact
    decimal (kernel-computable); `DecNum.toRat` gives its value.  It parses
    the longest valid numeric prefix (sign, digits, optional fraction,
    optional exponent), exactly as the JavaScript builtin; the `Infinity`
    literal is not modelled since no claim and no cell of this page
    involves it.
  * `localeCompare` is modelled as code-point lexicographic comparison
    (`cmpCharList`), which is what engines produce on the plain ASCII cell
    texts of this table.
  * `Array.prototype.sort` is mandated stable by ECMA-262; it is modelled by
    the stable insertion sort `sortBy` (any two stable sorts agree whenever
    the comparator is consistent).
  * DOM state touched by the script is carried in explicit state records;
    event listeners become step functions on those records.
-/

/-- Sum of a list of decimal digit characters read as a natural number,
mirroring how a JavaScript numeric literal prefix denotes its value. -/
def digitsToNat (ds : List Char) : Nat :=
  ds.foldl (fun n c => 10 * n + (c.toNat - '0'.toNat)) 0

/-- Model of `String.prototype.trim` on a character list: drop leading and
trailing whitespace. -/
def trimList (cs : List Char) : List Char :=
  ((cs.dropWhile Char.isWhitespace).reverse.dropWhile Char.isWhitespace).reverse

/-- Model of `String.prototype.trim`. -/
def jsTrim (s : String) : String :=
  String.mk (trimList s.data)

/-- Ten to a natural power, as an integer, by structural recursion (so the
kernel can evaluate it). -/
def pow10 : Nat → Int
  | 0 => 1
  | n + 1 => 10 * pow10 n

/-- An exact decimal number `mant * 10 ^ exp`.  This is the value
representation produced by the `parseFloat` model: the numbers appearing in
this script are short decimal literals, on which IEEE-754 doubles and exact
decimals order identically, so the exact representation is a faithful model
of the comparisons the script performs. -/
structure DecNum where
  mant : Int
  exp : Int
deriving DecidableEq

/-- Proof-level semantics of a `DecNum` as a rational number. -/
def DecNum.toRat (x : DecNum) : Rat :=
  (x.mant : Rat) * (10 : Rat) ^ x.exp

/-- Model of the JavaScript `parseFloat` builtin on a character list.
Parses the longest prefix of the shape
`ws* [+|-] digits [. digits] [e|E [+|-] digits]` and returns its value;
returns `none` (NaN) when no digit is found.  An exponent marker not
followed by digits is not part of the parsed prefix.  Trailing characters
beyond the numeric prefix are ignored, exactly as in JavaScript.  The
`Infinity` literal is not modelled (no claim and no cell of this page
involves it). -/
def parseFloatList (cs : List Char) : Option DecNum :=
  let cs1 := cs.dropWhile Char.isWhitespace
  let neg : Bool := cs1.head? = some '-'
  let cs2 := if cs1.head? = some '-' ∨ cs1.head? = some '+' then cs1.tail else cs1
  let intDigits := cs2.takeWhile Char.isDigit
  let cs3 := cs2.drop intDigits.length
  let fracDigits := if cs3.head? = some '.' then cs3.tail.takeWhile Char.isDigit else []
  let cs4 := if cs3.head? = some '.' then cs3.tail.drop fracDigits.length else cs3
  if intDigits = [] ∧ fracDigits = [] then none
  else
    let mant0 : Int := (digitsToNat intDigits : Int) * pow10 fracDigits.length
      + (digitsToNat fracDigits : Int)
    let hasExp := cs4.head? = some 'e' ∨ cs4.head? = some 'E'
    let afterE := cs4.tail
    let expNeg : Bool := afterE.head? = some '-'
    let expBody := if afterE.head? = some '-' ∨ afterE.head? = some '+' then afterE.tail else afterE
    let expDigits := expBody.takeWhile Char.isDigit
    let expPart : Int :=
      if hasExp ∧ expDigits ≠ [] then
        (if expNeg then -1 else 1) * (digitsToNat expDigits : Int)
      else 0
    some { mant := if neg then -mant0 else mant0,
           exp := expPart - (fracDigits.length : Int) }

/-- Model of `parseFloat` on strings. -/
def parseFloat (s : String) : Option DecNum :=
  parseFloatList s.data

/-- Code-point lexicographic comparison of character lists; the model of
`String.prototype.localeCompare` on the ASCII texts of this page (the sign
of its numeric result, as an `Ordering`). -/
def cmpCharList : List Char → List Char → Ordering
  | [], [] => Ordering.eq
  | [], _ :: _ => Ordering.lt
  | _ :: _, [] => Ordering.gt
  | a :: as, b :: bs =>
    if a < b then Ordering.lt else if b < a then Ordering.gt else cmpCharList as bs

/-- Sign of the rational difference x - y; proof-level companion of
`cmpDec`. -/
def cmpRat (x y : Rat) : Ordering :=
  if x < y then Ordering.lt else if y < x then Ordering.gt else Ordering.eq

/-- Sign of an integer comparison. -/
def cmpInt (x y : Int) : Ordering :=
  if x < y then Ordering.lt else if y < x then Ordering.gt else Ordering.eq

/-- Numeric comparison of two parsed numbers, the model of the sign of
`numA - numB` in the table comparator: both numbers are scaled to their
smaller decimal exponent and the integer mantissas are compared. -/
def cmpDec (x y : DecNum) : Ordering :=
  let e := min x.exp y.exp
  cmpInt (x.mant * pow10 (x.exp - e).toNat) (y.mant * pow10 (y.exp - e).toNat)

/-- A character admitted by the `[^\s@]` atom of the email regular
expression: neither whitespace nor the at sign. -/
def emailAtomChar (c : Char) : Bool :=
  !c.isWhitespace && c != '@'

/-- Model of `/^[^\s@]+@[^\s@]+\.[^\s@]+$/.test s` from `validateField`.
The whole string must decompose as `local @ domain` with exactly one at
sign (splitting on `@` yields exactly two pieces), a nonempty local part
of `[^\s@]` atoms, and a domain of `[^\s@]` atoms containing a dot at some
position that is neither its first nor its last character: such a dot cuts
the domain into the two nonempty `[^\s@]+` pieces of the pattern — and
since the `[^\s@]` atom itself admits dots, either piece may contain
further dots (so domains like `.b.c` or `b.c.` are accepted through an
inner witnessing dot, exactly as the regex backtracking accepts them).
The characters of the domain strictly between its first and last position
are `(domainPart.drop 1).dropLast`. -/
def emailRegexTest (s : String) : Bool :=
  match s.data.splitOn '@' with
  | [localPart, domainPart] =>
    !localPart.isEmpty && localPart.all emailAtomChar &&
    domainPart.all emailAtomChar &&
    (domainPart.drop 1).dropLast.contains '.'
  | _ => false

/-- Stable insertion of `a` into `l`: `a` goes in front of the first
element it does not compare strictly greater than.  This is the insertion
step of `sortBy`. -/
def insertBy (cmp : α → α → Ordering) (a : α) : List α → List α
  | [] => [a]
  | b :: bs =>
    if cmp a b = Ordering.gt then b :: insertBy cmp a bs else a :: b :: bs

/-- Model of `Array.prototype.sort(cmp)`: ECMA-262 requires the sort to be
stable, and for a consistent comparator every stable sort produces the same
output, so the stable insertion sort is a faithful model of the engine
sort on every comparator the script builds. -/
def sortBy (cmp : α → α → Ordering) : List α → List α
  | [] => []
  | a :: as => insertBy cmp a (sortBy cmp as)

/-- Table sort state, as in the script: `col` is the index of the sorted
column with `-1` meaning unsorted, `dir` is the string `asc` or `desc`. -/
structure SortState where
  col : Int
  dir : String
deriving DecidableEq

/-- The part of the table DOM the sorter reads and writes: the sequence of
body rows (each a list of cell texts, in column order) and the `aria-sort`
attribute of each column header (`none` when the attribute is absent). -/
structure TableState where
  sortState : SortState
  rows : List (List String)
  headerSort : List (Option String)
deriving DecidableEq

/-- The trimmed text content of the cell of `row` at `colIndex`, as read by
the comparator (`rowX.cells[colIndex].textContent.trim()`).  Out-of-range
column indices would throw in the browser; every claim instantiates the
index within range, where `getD` agrees with the DOM access. -/
def cellText (row : List String) (colIndex : Nat) : String :=
  jsTrim (row.getD colIndex "")

/-- The row comparator built inside `sortTable`: numeric when both trimmed
cell texts parse (by numeric prefix, as `parseFloat` does), locale string
comparison otherwise, flipped according to the direction. -/
def cellCompare (ascending : Bool) (a b : String) : Ordering :=
  match parseFloat a, parseFloat b with
  | some numA, some numB => if ascending then cmpDec numA numB else cmpDec numB numA
  | _, _ =>
    if ascending then cmpCharList a.data b.data else cmpCharList b.data a.data

/-- Model of `sortTable(colIndex, clickedTh)`: toggle or set the sort
state, stably reorder the rows by the comparator, reset every header
carrying an `aria-sort` attribute to `none`, then set the clicked header
(`clickedTh`, given by its index among the headers) to the applied
direction.  The live-region announcement is a write to a node no claim
reads back and is not carried in the state. -/
def sortTable (colIndex : Nat) (clickedTh : Nat) (st : TableState) : TableState :=
  let s : SortState :=
    if st.sortState.col = (colIndex : Int) then
      { col := st.sortState.col,
        dir := if st.sortState.dir = "asc" then "desc" else "asc" }
    else
      { col := (colIndex : Int), dir := "asc" }
  let ascending := s.dir = "asc"
  let rows := sortBy
    (fun rowA rowB => cellCompare ascending (cellText rowA colIndex) (cellText rowB colIndex))
    st.rows
  let headerSort :=
    (st.headerSort.map (Option.map fun _ => "none")).set clickedTh
      (some (if ascending then "ascending" else "descending"))
  { sortState := s, rows := rows, headerSort := headerSort }

/-- Does a header carry a sort marker other than `none`?  (`none : Option`
models a header without the `aria-sort` attribute, which carries no marker
at all.) -/
def nonNoneMarker : Option String → Bool
  | none => false
  | some v => v != "none"

/-- The state of one form field: its current value, its `aria-invalid`
marker, and the text of its associated error container (the element named
by `aria-describedby`, present in the markup for all three fields). -/
structure FormField where
  value : String
  ariaInvalid : Bool
  errorText : String
deriving DecidableEq

/-- The error message `validateField` computes for the field with the given
id and value: the emptiness check runs first on the trimmed value and
short-circuits the length/format check; an empty result means valid. -/
def validateFieldMsg (id : String) (value : String) : String :=
  if id = "name" then
    if jsTrim value = "" then "Full Name is required. Please enter your name."
    else if (jsTrim value).data.length < 2 then "Name must be at least 2 characters."
    else ""
  else if id = "email" then
    if jsTrim value = "" then "Email Address is required. Please enter your email."
    else if !emailRegexTest (jsTrim value) then
      "Please enter a valid email address (e.g. name@example.com)."
    else ""
  else if id = "message" then
    if jsTrim value = "" then "Message is required. Please enter your message."
    else if (jsTrim value).data.length < 10 then "Message must be at least 10 characters."
    else ""
  else ""

/-- Model of `validateField`: clear the previous error state, evaluate the
rules, then either set the invalid marker together with the single message,
or leave the field cleared.  Returns the updated field and the boolean the
script returns (`true` = valid). -/
def validateField (id : String) (f : FormField) : FormField × Bool :=
  let cleared : FormField := { f with ariaInvalid := false, errorText := "" }
  let msg := validateFieldMsg id f.value
  if msg ≠ "" then ({ cleared with ariaInvalid := true, errorText := msg }, false)
  else (cleared, true)

/-- The form-level state: the three fields, the `#form-status` live region
(class and text), and which field currently holds keyboard focus (by id). -/
structure FormState where
  name : FormField
  email : FormField
  message : FormField
  statusClass : String
  statusText : String
  focusedField : Option String
deriving DecidableEq

/-- Model of the `submit` listener: suppress the default submission (the
returned boolean records `event.preventDefault()`), validate the three
fields in the fixed order name, email, message, focus the first failing
field and post the failure status, or post the success status and reset
the field values (`form.reset()` restores the markup defaults, which are
empty strings on this page; the error states were already cleared by the
just-run validation). -/
def handleSubmit (st : FormState) : FormState × Bool :=
  let rName := validateField "name" st.name
  let rEmail := validateField "email" st.email
  let rMessage := validateField "message" st.message
  let firstInvalid : Option String :=
    if rName.2 = false then some "name"
    else if rEmail.2 = false then some "email"
    else if rMessage.2 = false then some "message"
    else none
  match firstInvalid with
  | some fid =>
    ({ st with
        name := rName.1, email := rEmail.1, message := rMessage.1,
        focusedField := some fid,
        statusClass := "form-status error",
        statusText :=
          "Form submission failed. Please correct the errors indicated below each field." },
      true)
  | none =>
    ({ st with
        name := { rName.1 with value := "" },
        email := { rEmail.1 with value := "" },
        message := { rMessage.1 with value := "" },
        statusClass := "form-status success",
        statusText := "Thank you! Your message has been sent successfully." },
      true)

/-- Model of the blur listener attached to each field: re-validate that
field alone. -/
def handleBlur (id : String) (st : FormState) : FormState :=
  if id = "name" then { st with name := (validateField "name" st.name).1 }
  else if id = "email" then { st with email := (validateField "email" st.email).1 }
  else if id = "message" then { st with message := (validateField "message" st.message).1 }
  else st

/-- The event listeners the form module registers, as (element id, event
type) pairs: one `submit` listener on the form and one `blur` listener per
field.  No other listener is registered by this module. -/
def formEventListeners : List (String × String) :=
  [("contact-form", "submit"), ("name", "blur"), ("email", "blur"), ("message", "blur")]

/-- Dispatch of a DOM event to the form module: the result pairs the new
state with the number of `validateField` executions the event caused
(instrumentation used to state that keystrokes never validate).  Events
with no matching registered listener leave the state untouched and run no
validation. -/
def formDispatch (targetId eventType : String) (st : FormState) : FormState × Nat :=
  if targetId = "contact-form" ∧ eventType = "submit" then ((handleSubmit st).1, 3)
  else if eventType = "blur" ∧ (targetId = "name" ∨ targetId = "email" ∨ targetId = "message") then
    (handleBlur targetId st, 1)
  else (st, 0)

/-- An element inside the dialog, as seen by `getFocusableElements`: its
tag, the attributes the selector list inspects, and whether `closest`
finds a `[hidden]` or `[aria-hidden="true"]` ancestor (self included).
`id` identifies the element (standing in for reference identity). -/
structure DomNode where
  id : Nat
  tag : String
  href : Bool
  disabled : Bool
  tabindex : Option Int
  inHidden : Bool
  inAriaHidden : Bool
deriving DecidableEq

/-- Membership in the comma-joined selector list of `getFocusableElements`:
`a[href]`, the four form controls when not disabled, and any element with
a `tabindex` attribute other than `-1`. -/
def matchesFocusSelector (n : DomNode) : Bool :=
  (n.tag == "a" && n.href)
  || (n.tag == "button" && !n.disabled)
  || (n.tag == "input" && !n.disabled)
  || (n.tag == "select" && !n.disabled)
  || (n.tag == "textarea" && !n.disabled)
  || (match n.tabindex with
      | some t => t != -1
      | none => false)

/-- Model of `getFocusableElements(container)`: the container subtree is the
given list in document order (the order `querySelectorAll` returns);
selector matches are then filtered by absence of hidden / aria-hidden
ancestors, exactly as in the script. -/
def getFocusableElements (container : List DomNode) : List DomNode :=
  (container.filter matchesFocusSelector).filter
    (fun el => !el.inHidden && !el.inAriaHidden)

/-- Where keyboard focus currently sits, for the modal module: an element
inside the dialog (by id), the dialog container itself, the open button,
or somewhere else in the page. -/
inductive FocusTarget where
  | el : Nat → FocusTarget
  | dialog
  | openBtn
  | outside
deriving DecidableEq

/-- Possible targets of a click event relevant to the modal wiring: the
open button, the close button, the overlay backdrop itself, or some inner
descendant of the overlay (a bubbled click whose target is not the
overlay). -/
inductive ClickTarget where
  | openBtn
  | closeBtn
  | overlay
  | inner : Nat → ClickTarget
deriving DecidableEq

/-- The DOM state the modal module reads and writes, plus one ghost field:
`openInvoker` records, in the step semantics, the target of the click that
last ran `openModal`; the claims compare the focus restored by `closeModal`
against it.  The script itself stores no such variable because its only
open trigger is the one open button. -/
structure ModalState where
  overlayAriaHidden : String
  overlayIsOpen : Bool
  headerInert : Bool
  mainInert : Bool
  footerInert : Bool
  focused : FocusTarget
  keydownBound : Bool
  openInvoker : Option FocusTarget
deriving DecidableEq

/-- Model of `openModal`: reveal the overlay, make the three landmark
regions inert, focus the first focusable element of the dialog (or the
dialog itself when there is none), and bind the keydown handler.  Binding
is idempotent, as `addEventListener` is for a repeated identical listener. -/
def openModal (content : List DomNode) (st : ModalState) : ModalState :=
  { st with
    overlayAriaHidden := "false",
    overlayIsOpen := true,
    headerInert := true, mainInert := true, footerInert := true,
    focused :=
      match getFocusableElements content with
      | [] => FocusTarget.dialog
      | e :: _ => FocusTarget.el e.id,
    keydownBound := true }

/-- Model of `closeModal`: hide the overlay, lift inertness from the three
landmark regions, return focus to the open button, and unbind the keydown
handler. -/
def closeModal (st : ModalState) : ModalState :=
  { st with
    overlayAriaHidden := "true",
    overlayIsOpen := false,
    headerInert := false, mainInert := false, footerInert := false,
    focused := FocusTarget.openBtn,
    keydownBound := false }

/-- Model of `handleModalKeydown`: recompute the focus cycle, close on
Escape, trap Tab and Shift+Tab at the cycle ends, suppress Tab entirely on
an empty cycle, and let every other key pass.  The returned boolean records
whether `event.preventDefault()` was called. -/
def handleModalKeydown (content : List DomNode) (key : String) (shiftKey : Bool)
    (st : ModalState) : ModalState × Bool :=
  if key = "Escape" then (closeModal st, false)
  else if key = "Tab" then
    match getFocusableElements content with
    | [] => (st, true)
    | f :: rest =>
      let lastF := (f :: rest).getLast (List.cons_ne_nil f rest)
      if shiftKey then
        if st.focused = FocusTarget.el f.id then
          ({ st with focused := FocusTarget.el lastF.id }, true)
        else (st, false)
      else
        if st.focused = FocusTarget.el lastF.id then
          ({ st with focused := FocusTarget.el f.id }, true)
        else (st, false)
  else (st, false)

/-- An input event delivered to the modal module. -/
inductive MEvent where
  | click : ClickTarget → MEvent
  | keydown : String → Bool → MEvent

/-- One step of the modal wiring: the open button click runs `openModal`
(and the step semantics records the invoker in the ghost field), the close
button click runs `closeModal`, a click whose target is exactly the overlay
backdrop runs `closeModal`, a bubbled inner click is ignored, and a keydown
reaches `handleModalKeydown` precisely while the handler is bound. -/
def modalStep (content : List DomNode) (st : ModalState) (ev : MEvent) : ModalState :=
  match ev with
  | MEvent.click ClickTarget.openBtn =>
    { openModal content st with openInvoker := some FocusTarget.openBtn }
  | MEvent.click ClickTarget.closeBtn => closeModal st
  | MEvent.click ClickTarget.overlay => closeModal st
  | MEvent.click (ClickTarget.inner _) => st
  | MEvent.keydown k s => if st.keydownBound then (handleModalKeydown content k s st).1 else st

/-- The page state at script initialization: overlay hidden, nothing inert,
focus outside the modal machinery, keydown handler unbound. -/
def modalInit : ModalState :=
  { overlayAriaHidden := "true", overlayIsOpen := false,
    headerInert := false, mainInert := false, footerInert := false,
    focused := FocusTarget.outside, keydownBound := false, openInvoker := none }

/-- The modal states reachable from initialization under any event
sequence. -/
inductive ModalReachable (content : List DomNode) : ModalState → Prop where
  | init : ModalReachable content modalInit
  | step : ∀ st ev, ModalReachable content st →
      ModalReachable content (modalStep content st ev)

/-- Presence, in the document, of each element the script looks up by
identifier or landmark selector. -/
structure Doc where
  modalOverlay : Bool
  modalDialog : Bool
  openModalBtn : Bool
  closeModalBtn : Bool
  headerLandmark : Bool
  mainLandmark : Bool
  footerLandmark : Bool
  contactForm : Bool
  formStatus : Bool
  nameField : Bool
  emailField : Bool
  messageField : Bool
  coursesTable : Bool
  coursesTbody : Bool
  tableAnnounce : Bool
deriving DecidableEq

deriving instance DecidableEq for Except

/-- The guard of `initModal`: handlers are wired only when the overlay, the
dialog and both buttons are found. -/
def initModalRegisters (d : Doc) : Bool :=
  d.modalOverlay && d.modalDialog && d.openModalBtn && d.closeModalBtn

/-- The guard of `initFormValidation`: the script checks only the form
element itself (`if (!form) return;`) before wiring the submit handler. -/
def initFormRegisters (d : Doc) : Bool :=
  d.contactForm

/-- The guard of `initSortableTable`: table, body and announcer are
checked; sort buttons need no check because `querySelectorAll` yields an
empty collection when absent. -/
def initTableRegisters (d : Doc) : Bool :=
  d.coursesTable && d.coursesTbody && d.tableAnnounce

/-- The submit listener, run against a document with the given elements
present: building the fields array and mapping `validateField` over it
dereferences each field element, and both outcome branches assign to
`formStatus.className`; each such dereference throws a `TypeError` when the
element is absent.  The error value names the missing element. -/
def formSubmitRun (d : Doc) (st : FormState) : Except String (FormState × Bool) :=
  if !d.nameField then Except.error "TypeError: null field #name dereferenced"
  else if !d.emailField then Except.error "TypeError: null field #email dereferenced"
  else if !d.messageField then Except.error "TypeError: null field #message dereferenced"
  else if !d.formStatus then Except.error "TypeError: null #form-status dereferenced"
  else Except.ok (handleSubmit st)

/-- A pristine form field (markup default: empty value, no error). -/
def emptyField : FormField :=
  { value := "", ariaInvalid := false, errorText := "" }

/-- The form state at page load. -/
def emptyFormState : FormState :=
  { name := emptyField, email := emptyField, message := emptyField,
    statusClass := "", statusText := "", focusedField := none }

/-- A document with every element of the page present except the
`#form-status` live region. -/
def docMissingStatus : Doc :=
  { modalOverlay := true, modalDialog := true, openModalBtn := true,
    closeModalBtn := true, headerLandmark := true, mainLandmark := true,
    footerLandmark := true, contactForm := true, formStatus := false,
    nameField := true, emailField := true, messageField := true,
    coursesTable := true, coursesTbody := true, tableAnnounce := true }

/-! ### Helper lemmas about the comparison and sorting primitives -/

theorem cmpRat_ne_gt_iff {x y : Rat} : cmpRat x y ≠ Ordering.gt ↔ x ≤ y := by
  unfold cmpRat
  split_ifs with h1 h2
  · simp [le_of_lt h1]
  · simp [not_le.mpr h2]
  · simpa using le_of_not_lt h2

theorem cmpRat_gt_iff {x y : Rat} : cmpRat x y = Ordering.gt ↔ y < x := by
  unfold cmpRat
  split_ifs with h1 h2
  · simp [not_lt.mpr (le_of_lt h1)]
  · simp [h2]
  · simp [h2]

theorem cmpRat_eq_iff {x y : Rat} : cmpRat x y = Ordering.eq ↔ x = y := by
  unfold cmpRat
  split_ifs with h1 h2
  · simp [ne_of_lt h1]
  · simp [Ne.symm (ne_of_lt h2)]
  · simp [le_antisymm (le_of_not_lt h2) (le_of_not_lt h1)]

theorem cmpInt_eq_cmpRat (m n : Int) : cmpInt m n = cmpRat (m : Rat) (n : Rat) := by
  unfold cmpInt cmpRat
  simp [Int.cast_lt]

theorem cmpRat_mul_right {c : Rat} (hc : 0 < c) (a b : Rat) :
    cmpRat (a * c) (b * c) = cmpRat a b := by
  unfold cmpRat
  simp [mul_lt_mul_right hc]

theorem pow10_cast_rat (n : Nat) : ((pow10 n : Int) : Rat) = 10 ^ n := by
  induction n with
  | zero => simp [pow10]
  | succ k ih => simp [pow10, pow_succ]; rw [ih]; ring

theorem decNum_scale (x : DecNum) {e : Int} (h : e ≤ x.exp) :
    ((x.mant * pow10 (x.exp - e).toNat : Int) : Rat) * (10 : Rat) ^ e = x.toRat := by
  have hn : ((x.exp - e).toNat : Int) = x.exp - e := Int.toNat_of_nonneg (by omega)
  have h10 : (10 : Rat) ≠ 0 := by norm_num
  push_cast
  rw [pow10_cast_rat]
  have : ((10 : Rat) ^ (x.exp - e).toNat) = (10 : Rat) ^ ((x.exp - e).toNat : Int) := by
    rw [zpow_natCast]
  rw [DecNum.toRat, this, hn, mul_assoc, ← zpow_add₀ h10]
  ring_nf

theorem cmpDec_eq_cmpRat (x y : DecNum) : cmpDec x y = cmpRat x.toRat y.toRat := by
  unfold cmpDec
  have hx : min x.exp y.exp ≤ x.exp := min_le_left _ _
  have hy : min x.exp y.exp ≤ y.exp := min_le_right _ _
  have hc : (0 : Rat) < (10 : Rat) ^ (min x.exp y.exp) := by positivity
  rw [cmpInt_eq_cmpRat, ← cmpRat_mul_right hc, decNum_scale x hx, decNum_scale y hy]

theorem insertBy_perm (cmp : α → α → Ordering) (a : α) (l : List α) :
    List.Perm (insertBy cmp a l) (a :: l) := by
  induction l with
  | nil => exact List.Perm.refl _
  | cons b bs ih =>
    unfold insertBy
    split_ifs with h
    · exact (ih.cons b).trans (List.Perm.swap a b bs)
    · exact List.Perm.refl _

theorem sortBy_perm (cmp : α → α → Ordering) (l : List α) : List.Perm (sortBy cmp l) l := by
  induction l with
  | nil => exact List.Perm.refl _
  | cons a as ih =>
    exact (insertBy_perm cmp a (sortBy cmp as)).trans (ih.cons a)

theorem mem_insertBy {cmp : α → α → Ordering} {a x : α} {l : List α} :
    x ∈ insertBy cmp a l ↔ x = a ∨ x ∈ l := by
  rw [(insertBy_perm cmp a l).mem_iff, List.mem_cons]

theorem insertBy_pairwise {cmp : α → α → Ordering} {le : α → α → Prop}
    (h₁ : ∀ x y, cmp x y = Ordering.gt → le y x)
    (h₂ : ∀ x y, cmp x y ≠ Ordering.gt → le x y)
    (htr : ∀ x y z, le x y → le y z → le x z)
    (a : α) {l : List α} (hl : l.Pairwise le) :
    (insertBy cmp a l).Pairwise le := by
  induction l with
  | nil => simp [insertBy]
  | cons b bs ih =>
    rcases List.pairwise_cons.mp hl with ⟨hb, hbs⟩
    unfold insertBy
    split_ifs with h
    · refine List.pairwise_cons.mpr ⟨?_, ih hbs⟩
      intro x hx
      rcases mem_insertBy.mp hx with rfl | hx
      · exact h₁ _ _ h
      · exact hb x hx
    · refine List.pairwise_cons.mpr ⟨?_, hl⟩
      intro x hx
      rcases List.mem_cons.mp hx with rfl | hx
      · exact h₂ _ _ h
      · exact htr _ _ _ (h₂ _ _ h) (hb x hx)

theorem sortBy_pairwise {cmp : α → α → Ordering} {le : α → α → Prop}
    (h₁ : ∀ x y, cmp x y = Ordering.gt → le y x)
    (h₂ : ∀ x y, cmp x y ≠ Ordering.gt → le x y)
    (htr : ∀ x y z, le x y → le y z → le x z)
    (l : List α) : (sortBy cmp l).Pairwise le := by
  induction l with
  | nil => simp [sortBy]
  | cons a as ih => exact insertBy_pairwise h₁ h₂ htr a ih

theorem insertBy_congr {cmp₁ cmp₂ : α → α → Ordering} (a : α) (l : List α)
    (h : ∀ x ∈ a :: l, ∀ y ∈ a :: l, cmp₁ x y = cmp₂ x y) :
    insertBy cmp₁ a l = insertBy cmp₂ a l := by
  induction l with
  | nil => rfl
  | cons b bs ih =>
    unfold insertBy
    have hab : cmp₁ a b = cmp₂ a b :=
      h a (by simp) b (by simp)
    rw [hab]
    split_ifs with hgt
    · rw [ih]
      intro x hx y hy
      refine h x ?_ y ?_
      · rcases List.mem_cons.mp hx with rfl | hx
        · simp
        · simp [hx]
      · rcases List.mem_cons.mp hy with rfl | hy
        · simp
        · simp [hy]
    · rfl

theorem sortBy_congr {cmp₁ cmp₂ : α → α → Ordering} (l : List α)
    (h : ∀ x ∈ l, ∀ y ∈ l, cmp₁ x y = cmp₂ x y) :
    sortBy cmp₁ l = sortBy cmp₂ l := by
  induction l with
  | nil => rfl
  | cons a as ih =>
    unfold sortBy
    rw [ih (fun x hx y hy => h x (by simp [hx]) y (by simp [hy]))]
    refine insertBy_congr a (sortBy cmp₂ as) ?_
    intro x hx y hy
    have hsub : ∀ z, z ∈ a :: sortBy cmp₂ as → z ∈ a :: as := by
      intro z hz
      rcases List.mem_cons.mp hz with rfl | hz
      · simp
      · exact List.mem_cons.mpr (Or.inr ((sortBy_perm cmp₂ as).mem_iff.mp hz))
    exact h x (hsub x hx) y (hsub y hy)

theorem eq_of_perm_of_pairwise {r : α → α → Prop}
    (hasym : ∀ a b, r a b → r b a → False) :
    ∀ {l₁ l₂ : List α}, List.Perm l₁ l₂ → l₁.Pairwise r → l₂.Pairwise r → l₁ = l₂ := by
  intro l₁
  induction l₁ with
  | nil =>
    intro l₂ hp _ _
    exact hp.nil_eq
  | cons a t₁ ih =>
    intro l₂ hp h₁ h₂
    cases l₂ with
    | nil => exact absurd hp.symm (by simp)
    | cons b t₂ =>
      rcases List.pairwise_cons.mp h₁ with ⟨ha, ht₁⟩
      rcases List.pairwise_cons.mp h₂ with ⟨hb, ht₂⟩
      have hab : a = b := by
        by_contra hne
        have hat2 : a ∈ t₂ := by
          have := hp.mem_iff.mp (List.mem_cons_self a t₁)
          rcases List.mem_cons.mp this with rfl | h
          · exact absurd rfl hne
          · exact h
        have hbt1 : b ∈ t₁ := by
          have := hp.symm.mem_iff.mp (List.mem_cons_self b t₂)
          rcases List.mem_cons.mp this with rfl | h
          · exact absurd rfl (Ne.symm hne)
          · exact h
        exact hasym a b (ha b hbt1) (hb a hat2)
      subst hab
      rw [ih hp.cons_inv ht₁ ht₂]

theorem cmpRat_lt_iff {x y : Rat} : cmpRat x y = Ordering.lt ↔ x < y := by
  unfold cmpRat
  split_ifs with h1 h2
  · simp [h1]
  · simp [h1, h2]
  · simp [h1]

theorem cmpCharList_swap (x : List Char) :
    ∀ y, cmpCharList x y = Ordering.gt ↔ cmpCharList y x = Ordering.lt := by
  induction x with
  | nil =>
    intro y
    cases y <;> simp [cmpCharList]
  | cons a as ih =>
    intro y
    cases y with
    | nil => simp [cmpCharList]
    | cons b bs =>
      simp only [cmpCharList]
      rcases lt_trichotomy a b with h | h | h
      · have h2 : ¬b < a := not_lt.mpr h.le
        simp [h, h2]
      · subst h
        simp [lt_irrefl, ih bs]
      · have h2 : ¬a < b := not_lt.mpr h.le
        simp [h, h2]

theorem cmpCharList_le_trans (x : List Char) :
    ∀ y z, cmpCharList x y ≠ Ordering.gt → cmpCharList y z ≠ Ordering.gt →
      cmpCharList x z ≠ Ordering.gt := by
  induction x with
  | nil =>
    intro y z h1 h2
    cases z <;> simp [cmpCharList]
  | cons a as ih =>
    intro y z h1 h2
    cases y with
    | nil => simp [cmpCharList] at h1
    | cons b bs =>
      cases z with
      | nil => simp [cmpCharList] at h2
      | cons c cs =>
        simp only [cmpCharList] at h1 h2 ⊢
        by_cases hab : a < b
        · by_cases hbc : b < c
          · simp [lt_trans hab hbc]
          · by_cases hcb : c < b
            · rw [if_neg hbc, if_pos hcb] at h2
              exact absurd rfl h2
            · have hbceq : b = c := le_antisymm (le_of_not_lt hcb) (le_of_not_lt hbc)
              subst hbceq
              simp [hab]
        · by_cases hba : b < a
          · rw [if_neg hab, if_pos hba] at h1
            exact absurd rfl h1
          · have habeq : a = b := le_antisymm (le_of_not_lt hba) (le_of_not_lt hab)
            subst habeq
            rw [if_neg (lt_irrefl a), if_neg (lt_irrefl a)] at h1
            by_cases hac : a < c
            · simp [hac]
            · by_cases hca : c < a
              · rw [if_neg hac, if_pos hca] at h2
                exact absurd rfl h2
              · have haceq : a = c := le_antisymm (le_of_not_lt hca) (le_of_not_lt hac)
                subst haceq
                rw [if_neg (lt_irrefl a), if_neg (lt_irrefl a)] at h2
                rw [if_neg (lt_irrefl a), if_neg (lt_irrefl a)]
                exact ih bs cs h1 h2

theorem sortBy_flip_eq_reverse {α} (cmp : α → α → Ordering)
    (hswap : ∀ x y, cmp x y = Ordering.gt ↔ cmp y x = Ordering.lt)
    (htrans : ∀ x y z, cmp x y ≠ Ordering.gt → cmp y z ≠ Ordering.gt →
      cmp x z ≠ Ordering.gt)
    (l : List α)
    (hdist : l.Pairwise fun a b => cmp a b ≠ Ordering.eq) :
    sortBy (fun a b => cmp b a) (sortBy cmp l) = (sortBy cmp l).reverse := by
  have hcases : ∀ x y, cmp x y = Ordering.lt ∨ cmp x y = Ordering.eq
      ∨ cmp x y = Ordering.gt := by
    intro x y
    cases cmp x y <;> simp
  have heqswap : ∀ x y, cmp x y = Ordering.eq → cmp y x = Ordering.eq := by
    intro x y h
    rcases hcases y x with h2 | h2 | h2
    · have h3 := (hswap x y).mpr h2
      rw [h] at h3
      exact absurd h3 (by decide)
    · exact h2
    · have h3 := (hswap y x).mp h2
      rw [h] at h3
      exact absurd h3 (by decide)
  have hnesymm : ∀ {a b : α}, cmp a b ≠ Ordering.eq → cmp b a ≠ Ordering.eq :=
    fun h he => h (heqswap _ _ he)
  have hA_le : (sortBy cmp l).Pairwise (fun a b => cmp a b ≠ Ordering.gt) := by
    refine sortBy_pairwise ?_ ?_ htrans l
    · intro x y hxy
      have hlt := (hswap x y).mp hxy
      rw [hlt]
      simp
    · exact fun x y h => h
  have hdistA : (sortBy cmp l).Pairwise (fun a b => cmp a b ≠ Ordering.eq) :=
    ((sortBy_perm cmp l).pairwise_iff (fun {a b} h => hnesymm h)).mpr hdist
  have hAstrict : (sortBy cmp l).Pairwise (fun a b => cmp a b = Ordering.lt) := by
    refine (hA_le.and hdistA).imp ?_
    intro a b h
    rcases hcases a b with h2 | h2 | h2
    · exact h2
    · exact absurd h2 h.2
    · exact absurd h2 h.1
  have hD_le : (sortBy (fun a b => cmp b a) (sortBy cmp l)).Pairwise
      (fun a b => cmp b a ≠ Ordering.gt) := by
    refine sortBy_pairwise ?_ ?_ ?_ (sortBy cmp l)
    · intro x y hxy
      have hlt := (hswap y x).mp hxy
      rw [hlt]
      simp
    · exact fun x y h => h
    · intro x y z h1 h2
      exact htrans z y x h2 h1
  have hdistD : (sortBy (fun a b => cmp b a) (sortBy cmp l)).Pairwise
      (fun a b => cmp a b ≠ Ordering.eq) :=
    ((sortBy_perm _ (sortBy cmp l)).pairwise_iff (fun {a b} h => hnesymm h)).mpr hdistA
  have hDstrict : (sortBy (fun a b => cmp b a) (sortBy cmp l)).Pairwise
      (fun a b => cmp b a = Ordering.lt) := by
    refine (hD_le.and hdistD).imp ?_
    intro a b h
    rcases hcases b a with h2 | h2 | h2
    · exact h2
    · exact absurd h2 (hnesymm h.2)
    · exact absurd h2 h.1
  have hrev : (sortBy cmp l).reverse.Pairwise (fun a b => cmp b a = Ordering.lt) :=
    List.pairwise_reverse.mpr hAstrict
  have hperm : List.Perm (sortBy (fun a b => cmp b a) (sortBy cmp l))
      ((sortBy cmp l).reverse) :=
    (sortBy_perm _ (sortBy cmp l)).trans (List.reverse_perm (sortBy cmp l)).symm
  refine eq_of_perm_of_pairwise ?_ hperm hDstrict hrev
  intro a b h1 h2
  have h3 := (hswap b a).mpr h2
  rw [h3] at h1
  exact absurd h1 (by decide)

theorem parseFloatList_digit_head (c : Char) (t : List Char)
    (hws : c.isWhitespace = false) (hm : c ≠ '-') (hp : c ≠ '+') (hd : c.isDigit = true) :
    (parseFloatList (c :: t)).isSome = true := by
  have h1 : List.dropWhile Char.isWhitespace (c :: t) = c :: t := by
    rw [List.dropWhile_cons, hws]; simp
  have h2 : ((c :: t).head? = some '-') = False := by simp [hm]
  have h3 : ((c :: t).head? = some '+') = False := by simp [hp]
  have h4 : List.takeWhile Char.isDigit (c :: t) = c :: List.takeWhile Char.isDigit t := by
    rw [List.takeWhile_cons, hd]; simp
  simp only [parseFloatList, h1, h2, h3]
  simp [h4]

/-! ### Claim theorems -/

/-- Claim C1 (the code contradicts it): the specification promises that a
controller whose required elements are missing silently declines to
initialize, with no exception ever surfacing; but `initFormValidation`
checks only the form element, so in a document where `#contact-form` is
present and `#form-status` is absent the submit handler is still
registered, and submitting then throws a `TypeError` on the null status
element. -/
theorem initFormValidation_missing_status_throws :
    initFormRegisters docMissingStatus = true
    ∧ formSubmitRun docMissingStatus emptyFormState =
        Except.error "TypeError: null #form-status dereferenced" := by
  decide

/-- Claim C9: the form module registers listeners only for `submit` and
`blur`; dispatching a `keydown`, `keypress` or `input` event runs zero
executions of `validateField` and leaves the form state untouched, in
every state. -/
theorem validation_only_on_blur_or_submit :
    (∀ l ∈ formEventListeners, l.2 = "submit" ∨ l.2 = "blur")
    ∧ (∀ targetId eventType : String, ∀ st : FormState,
        eventType = "keydown" ∨ eventType = "keypress" ∨ eventType = "input" →
        formDispatch targetId eventType st = (st, 0)) := by
  constructor
  · intro l hl
    fin_cases hl <;> simp
  · intro targetId eventType st hty
    have hsub : eventType ≠ "submit" := by
      rcases hty with rfl | rfl | rfl <;> decide
    have hblur : eventType ≠ "blur" := by
      rcases hty with rfl | rfl | rfl <;> decide
    unfold formDispatch
    rw [if_neg (fun h => hsub h.2), if_neg (fun h => hblur h.1)]

/-- Witness for C9 at a concrete keystroke event. -/
theorem validation_only_on_blur_or_submit_witness :
    formDispatch "name" "keydown" emptyFormState = (emptyFormState, 0) :=
  validation_only_on_blur_or_submit.2 "name" "keydown" emptyFormState (Or.inl rfl)

/-- Counterexample to claim C2 as stated: the claim requires values that
merely begin with digits but carry trailing non-numeric characters to be
compared as strings, yet the comparator uses `parseFloat`, which accepts a
numeric prefix, so `"10x"` and `"9y"` are compared numerically: the
ascending comparator yields `gt` (10 after 9) where string comparison
yields `lt`, and the sorted order puts `"9y"` first. -/
theorem comparator_full_parse_counterexample :
    cellCompare true "10x" "9y" = Ordering.gt
    ∧ cmpCharList "10x".data "9y".data = Ordering.lt
    ∧ (sortTable 0 0 ⟨⟨-1, "asc"⟩, [["10x"], ["9y"]], [some "none"]⟩).rows
        = [["9y"], ["10x"]] := by
  decide

/-- Claim C2 (amended): the comparator takes the trimmed texts and compares
them numerically exactly when both have a parseable numeric prefix
(`parseFloat` semantics), falling back to locale string order otherwise;
in particular any cell text beginning with a decimal digit parses and is
compared numerically by its prefix, and a numeric column `3, 10, 2` sorts
ascending to `2, 3, 10`. -/
theorem comparator_numeric_parse_rule (a b : String) :
    (∀ x y, parseFloat a = some x → parseFloat b = some y →
       cellCompare true a b = cmpDec x y ∧ cellCompare false a b = cmpDec y x)
    ∧ (parseFloat a = none ∨ parseFloat b = none →
       cellCompare true a b = cmpCharList a.data b.data
       ∧ cellCompare false a b = cmpCharList b.data a.data)
    ∧ (∀ c : Char, c ∈ ['0', '1', '2', '3', '4', '5', '6', '7', '8', '9'] →
        ∀ t : List Char, (parseFloatList (c :: t)).isSome = true)
    ∧ (sortTable 0 0 ⟨⟨-1, "asc"⟩, [["3"], ["10"], ["2"]], [some "none"]⟩).rows
        = [["2"], ["3"], ["10"]] := by
  refine ⟨?_, ?_, ?_, by decide⟩
  · intro x y hx hy
    constructor <;> simp [cellCompare, hx, hy]
  · intro h
    rcases h with hx | hy
    · cases hb : parseFloat b <;> constructor <;> simp [cellCompare, hx, hb]
    · cases ha : parseFloat a <;> constructor <;> simp [cellCompare, ha, hy]
  · intro c hc t
    fin_cases hc <;>
      exact parseFloatList_digit_head _ t (by decide) (by decide) (by decide) (by decide)

/-- Witness for C2 (amended) at the concrete pair `"10x"`, `"9y"`. -/
theorem comparator_numeric_parse_rule_witness :
    parseFloat "10x" = some ⟨10, 0⟩ ∧ parseFloat "9y" = some ⟨9, 0⟩
    ∧ cellCompare true "10x" "9y" = cmpDec ⟨10, 0⟩ ⟨9, 0⟩
    ∧ cmpDec ⟨10, 0⟩ ⟨9, 0⟩ = Ordering.gt :=
  ⟨by decide, by decide,
    ((comparator_numeric_parse_rule "10x" "9y").1 ⟨10, 0⟩ ⟨9, 0⟩ (by decide) (by decide)).1,
    by decide⟩

/-- Claim C4: `validateField` checks emptiness first on every field (an
empty trimmed value always yields the required message, short-circuiting
the length/format rule), sets at most one message per call and couples the
invalid marker with it, and follows the fixed rule table on the email and
message fields: `""` is required, `"a@b"` is badly formatted, `"a@b.com"`
is valid with the marker cleared, a 9-character message is too short and a
10-character message is valid. -/
theorem validateField_rule_table :
    (∀ v, jsTrim v = "" →
       validateFieldMsg "name" v = "Full Name is required. Please enter your name."
       ∧ validateFieldMsg "email" v = "Email Address is required. Please enter your email."
       ∧ validateFieldMsg "message" v = "Message is required. Please enter your message.")
    ∧ (∀ id f,
        ((validateField id f).2 = true ∧ (validateField id f).1.ariaInvalid = false
          ∧ (validateField id f).1.errorText = "")
        ∨ ((validateField id f).2 = false ∧ (validateField id f).1.ariaInvalid = true
          ∧ (validateField id f).1.errorText = validateFieldMsg id f.value
          ∧ validateFieldMsg id f.value ≠ ""))
    ∧ (∀ b e, validateField "email" ⟨"", b, e⟩ =
        (⟨"", true, "Email Address is required. Please enter your email."⟩, false))
    ∧ (∀ b e, validateField "email" ⟨"a@b", b, e⟩ =
        (⟨"a@b", true, "Please enter a valid email address (e.g. name@example.com)."⟩, false))
    ∧ (∀ b e, validateField "email" ⟨"a@b.com", b, e⟩ = (⟨"a@b.com", false, ""⟩, true))
    ∧ (∀ v b e, jsTrim v = v → v.data.length = 9 →
        validateField "message" ⟨v, b, e⟩ =
          (⟨v, true, "Message must be at least 10 characters."⟩, false))
    ∧ (∀ v b e, jsTrim v = v → v.data.length = 10 →
        validateField "message" ⟨v, b, e⟩ = (⟨v, false, ""⟩, true)) := by
  refine ⟨?_, ?_, fun b e => rfl, fun b e => rfl, fun b e => rfl, ?_, ?_⟩
  · intro v hv
    refine ⟨?_, ?_, ?_⟩ <;> simp [validateFieldMsg, hv]
  · intro id f
    by_cases hmsg : validateFieldMsg id f.value = ""
    · left; simp [validateField, hmsg]
    · right; simp [validateField, hmsg]
  · intro v b e ht h9
    have hne : v ≠ "" := by
      intro h
      rw [h] at h9
      exact absurd h9 (by decide)
    simp [validateField, validateFieldMsg, ht, hne, h9]
  · intro v b e ht h10
    have hne : v ≠ "" := by
      intro h
      rw [h] at h10
      exact absurd h10 (by decide)
    simp [validateField, validateFieldMsg, ht, hne, h10]

/-- Witness for C4: a concrete 9-character message is rejected as too
short. -/
theorem validateField_rule_table_witness :
    jsTrim "123456789" = "123456789" ∧ ("123456789" : String).data.length = 9
    ∧ validateField "message" ⟨"123456789", false, ""⟩ =
        (⟨"123456789", true, "Message must be at least 10 characters."⟩, false) :=
  ⟨by decide, by decide,
    validateField_rule_table.2.2.2.2.2.1 "123456789" false "" (by decide) (by decide)⟩

/-- Claim C10: every rule of `validateField` runs on the trimmed value: a
whitespace-only value trims to empty and yields the required message, the
length rules for name and message test the trimmed length, the email
format rule tests the trimmed value, and the concrete 10-character input
`"123456789 "` (9 characters plus a trailing space) is rejected as too
short. -/
theorem validateField_trims_value :
    (∀ v : String, v.data.all Char.isWhitespace = true →
       jsTrim v = ""
       ∧ validateFieldMsg "name" v = "Full Name is required. Please enter your name."
       ∧ validateFieldMsg "email" v = "Email Address is required. Please enter your email."
       ∧ validateFieldMsg "message" v = "Message is required. Please enter your message.")
    ∧ (∀ v : String, jsTrim v ≠ "" →
       ((jsTrim v).data.length < 2 →
          validateFieldMsg "name" v = "Name must be at least 2 characters.")
       ∧ (¬(jsTrim v).data.length < 2 → validateFieldMsg "name" v = "")
       ∧ ((jsTrim v).data.length < 10 →
          validateFieldMsg "message" v = "Message must be at least 10 characters.")
       ∧ (¬(jsTrim v).data.length < 10 → validateFieldMsg "message" v = "")
       ∧ validateFieldMsg "email" v =
           (if emailRegexTest (jsTrim v) then ""
            else "Please enter a valid email address (e.g. name@example.com)."))
    ∧ (("123456789 " : String).data.length = 10
       ∧ validateField "message" ⟨"123456789 ", false, ""⟩ =
           (⟨"123456789 ", true, "Message must be at least 10 characters."⟩, false)) := by
  refine ⟨?_, ?_, by decide, by decide⟩
  · intro v hv
    have hd : v.data.dropWhile Char.isWhitespace = [] := by
      rw [List.dropWhile_eq_nil_iff]
      intro a ha
      exact List.all_eq_true.mp hv a ha
    have htr : jsTrim v = "" := by
      show String.mk (trimList v.data) = ""
      unfold trimList
      rw [hd]
      rfl
    refine ⟨htr, ?_, ?_, ?_⟩ <;> simp [validateFieldMsg, htr]
  · intro v hv
    refine ⟨?_, ?_, ?_, ?_, ?_⟩
    · intro h
      have h2 : (jsTrim v).length < 2 := h
      simp [validateFieldMsg, hv, h, h2]
    · intro h
      have h2 : ¬(jsTrim v).length < 2 := h
      simp [validateFieldMsg, hv, h, h2]
    · intro h
      have h2 : (jsTrim v).length < 10 := h
      simp [validateFieldMsg, hv, h, h2]
    · intro h
      have h2 : ¬(jsTrim v).length < 10 := h
      simp [validateFieldMsg, hv, h, h2]
    · cases he : emailRegexTest (jsTrim v) <;> simp [validateFieldMsg, hv, he]

/-- Witness for C10 at a concrete whitespace-only input. -/
theorem validateField_trims_value_witness :
    (("   " : String).data.all Char.isWhitespace = true)
    ∧ jsTrim "   " = ""
    ∧ validateFieldMsg "message" "   " = "Message is required. Please enter your message." :=
  ⟨by decide, (validateField_trims_value.1 "   " (by decide)).1,
    (validateField_trims_value.1 "   " (by decide)).2.2.2⟩

theorem validateField_of_valid {id : String} {f : FormField}
    (h : (validateField id f).2 = true) :
    (validateField id f).1 = { f with ariaInvalid := false, errorText := "" } := by
  by_cases hmsg : validateFieldMsg id f.value = ""
  · simp [validateField, hmsg]
  · simp [validateField, hmsg] at h

/-- Claim C5: submitting always suppresses the default action and validates
every field in the fixed order name, email, message; when a field fails,
focus moves to the first failing field in that order and the form-level
status region receives the submission-failure message, which differs from
every per-field message; when all pass, the status region receives the
success message and all field values and error states are reset. -/
theorem form_submit_fixed_order (st : FormState) :
    ((handleSubmit st).2 = true)
    ∧ ((validateField "name" st.name).2 = false →
        (handleSubmit st).1.focusedField = some "name")
    ∧ ((validateField "name" st.name).2 = true →
       (validateField "email" st.email).2 = false →
        (handleSubmit st).1.focusedField = some "email")
    ∧ ((validateField "name" st.name).2 = true →
       (validateField "email" st.email).2 = true →
       (validateField "message" st.message).2 = false →
        (handleSubmit st).1.focusedField = some "message")
    ∧ (((validateField "name" st.name).2 = false
         ∨ (validateField "email" st.email).2 = false
         ∨ (validateField "message" st.message).2 = false) →
        ((handleSubmit st).1.statusClass = "form-status error"
         ∧ (handleSubmit st).1.statusText =
             "Form submission failed. Please correct the errors indicated below each field."
         ∧ (handleSubmit st).1.name = (validateField "name" st.name).1
         ∧ (handleSubmit st).1.email = (validateField "email" st.email).1
         ∧ (handleSubmit st).1.message = (validateField "message" st.message).1))
    ∧ ((validateField "name" st.name).2 = true →
       (validateField "email" st.email).2 = true →
       (validateField "message" st.message).2 = true →
        ((handleSubmit st).1.statusClass = "form-status success"
         ∧ (handleSubmit st).1.statusText = "Thank you! Your message has been sent successfully."
         ∧ (handleSubmit st).1.name = emptyField
         ∧ (handleSubmit st).1.email = emptyField
         ∧ (handleSubmit st).1.message = emptyField))
    ∧ ("Form submission failed. Please correct the errors indicated below each field." ∉
        ["Full Name is required. Please enter your name.",
         "Name must be at least 2 characters.",
         "Email Address is required. Please enter your email.",
         "Please enter a valid email address (e.g. name@example.com).",
         "Message is required. Please enter your message.",
         "Message must be at least 10 characters."]) := by
  refine ⟨?_, ?_, ?_, ?_, ?_, ?_, by decide⟩
  · rcases Bool.eq_false_or_eq_true (validateField "name" st.name).2 with hn | hn <;>
      rcases Bool.eq_false_or_eq_true (validateField "email" st.email).2 with he | he <;>
        rcases Bool.eq_false_or_eq_true (validateField "message" st.message).2 with hm | hm <;>
          simp [handleSubmit, hn, he, hm]
  · intro hn
    simp [handleSubmit, hn]
  · intro hn he
    simp [handleSubmit, hn, he]
  · intro hn he hm
    simp [handleSubmit, hn, he, hm]
  · intro h
    rcases h with h | h | h
    · simp [handleSubmit, h]
    · rcases Bool.eq_false_or_eq_true (validateField "name" st.name).2 with hn | hn <;>
        simp [handleSubmit, hn, h]
    · rcases Bool.eq_false_or_eq_true (validateField "name" st.name).2 with hn | hn <;>
        rcases Bool.eq_false_or_eq_true (validateField "email" st.email).2 with he | he <;>
          simp [handleSubmit, hn, he, h]
  · intro hn he hm
    simp [handleSubmit, hn, he, hm, validateField_of_valid hn, validateField_of_valid he,
      validateField_of_valid hm, emptyField]

/-- Witness for C5: submitting the pristine (all-invalid) form moves focus
to the name field. -/
theorem form_submit_fixed_order_witness :
    (validateField "name" emptyFormState.name).2 = false
    ∧ (handleSubmit emptyFormState).2 = true
    ∧ (handleSubmit emptyFormState).1.focusedField = some "name" :=
  ⟨by decide, (form_submit_fixed_order emptyFormState).1,
    (form_submit_fixed_order emptyFormState).2.1 (by decide)⟩

theorem length_filter_set_one {α} {p : α → Bool} :
    ∀ (l : List α) (i : Nat), (∀ e ∈ l, p e = false) → i < l.length →
      ∀ a, p a = true → ((l.set i a).filter p).length = 1 := by
  intro l
  induction l with
  | nil =>
    intro i _ hi
    simp at hi
  | cons b bs ih =>
    intro i hall hi a hpa
    cases i with
    | zero =>
      have hnil : bs.filter p = [] := by
        rw [List.filter_eq_nil_iff]
        intro e he
        simp [hall e (List.mem_cons_of_mem b he)]
      simp [List.set, List.filter_cons, hpa, hnil]
    | succ j =>
      have hb : p b = false := hall b (List.mem_cons_self b bs)
      have hj : j < bs.length := by simpa using hi
      simp only [List.set, List.filter_cons, hb]
      simpa using ih j (fun e he => hall e (List.mem_cons_of_mem b he)) hj a hpa

/-- Claim C8: after a sort invocation (with the clicked header being the
header of the sorted column, as the markup ties them, and the column index
in range), the sorted column header carries the marker matching the applied
direction, exactly one header carries a marker other than `none`, and every
other header was reset to `none` (or carries no `aria-sort` attribute at
all, hence no marker). -/
theorem sortTable_marker_invariant (st : TableState) (colIndex : Nat)
    (h : colIndex < st.headerSort.length) :
    ((sortTable colIndex colIndex st).headerSort.getD colIndex none
        = some (if (sortTable colIndex colIndex st).sortState.dir = "asc"
                then "ascending" else "descending"))
    ∧ (((sortTable colIndex colIndex st).headerSort.filter nonNoneMarker).length = 1)
    ∧ (∀ j, j < st.headerSort.length → j ≠ colIndex →
        (sortTable colIndex colIndex st).headerSort.getD j none = none
        ∨ (sortTable colIndex colIndex st).headerSort.getD j none = some "none")
    ∧ (sortTable colIndex colIndex st).sortState.col = (colIndex : Int) := by
  have hallfalse : ∀ e ∈ st.headerSort.map (Option.map fun _ => "none"),
      nonNoneMarker e = false := by
    intro e he
    rcases List.mem_map.mp he with ⟨x, _, rfl⟩
    cases x <;> simp [nonNoneMarker]
  have hlen : colIndex < (st.headerSort.map (Option.map fun _ => "none")).length := by
    simpa using h
  refine ⟨?_, ?_, ?_, ?_⟩
  · simp only [sortTable]
    rw [List.getD_eq_getElem?_getD, List.getElem?_set_eq_of_lt _ hlen]
    rfl
  · simp only [sortTable]
    refine length_filter_set_one _ colIndex hallfalse hlen _ ?_
    split
    · split <;> rfl
    · rfl
  · intro j hj hne
    simp only [sortTable]
    rw [List.getD_eq_getElem?_getD, List.getElem?_set_ne (Ne.symm hne),
      List.getElem?_map]
    cases hx : st.headerSort[j]? with
    | none => simp
    | some x => cases x <;> simp
  · simp only [sortTable]
    split
    · rename_i hcond
      simpa using hcond
    · simp

/-- Witness for C8 on a concrete two-column table. -/
theorem sortTable_marker_invariant_witness :
    (0 < 2)
    ∧ ((sortTable 0 0 ⟨⟨-1, "asc"⟩, [["b", "x"], ["a", "y"]],
          [some "none", some "none"]⟩).headerSort.getD 0 none
        = some (if (sortTable 0 0 ⟨⟨-1, "asc"⟩, [["b", "x"], ["a", "y"]],
              [some "none", some "none"]⟩).sortState.dir = "asc"
            then "ascending" else "descending"))
    ∧ (((sortTable 0 0 ⟨⟨-1, "asc"⟩, [["b", "x"], ["a", "y"]],
          [some "none", some "none"]⟩).headerSort.filter nonNoneMarker).length = 1)
    ∧ ((sortTable 0 0 ⟨⟨-1, "asc"⟩, [["b", "x"], ["a", "y"]],
          [some "none", some "none"]⟩).headerSort.getD 1 none = none
       ∨ (sortTable 0 0 ⟨⟨-1, "asc"⟩, [["b", "x"], ["a", "y"]],
          [some "none", some "none"]⟩).headerSort.getD 1 none = some "none")
    ∧ (sortTable 0 0 ⟨⟨-1, "asc"⟩, [["b", "x"], ["a", "y"]],
          [some "none", some "none"]⟩).sortState.col = ((0 : Nat) : Int) :=
  ⟨by decide,
    (sortTable_marker_invariant ⟨⟨-1, "asc"⟩, [["b", "x"], ["a", "y"]],
      [some "none", some "none"]⟩ 0 (by decide)).1,
    (sortTable_marker_invariant ⟨⟨-1, "asc"⟩, [["b", "x"], ["a", "y"]],
      [some "none", some "none"]⟩ 0 (by decide)).2.1,
    (sortTable_marker_invariant ⟨⟨-1, "asc"⟩, [["b", "x"], ["a", "y"]],
      [some "none", some "none"]⟩ 0 (by decide)).2.2.1 1 (by decide) (by decide),
    (sortTable_marker_invariant ⟨⟨-1, "asc"⟩, [["b", "x"], ["a", "y"]],
      [some "none", some "none"]⟩ 0 (by decide)).2.2.2⟩

/-- Counterexample to claim C7 as stated, and to its extension to arbitrary
comparator-distinct columns.  First, the cells `"1.0"` and `"1"` are
pairwise distinct texts, but they parse to the same number, so the
comparator reports them equal and the stable sort leaves them in place in
both directions; the descending order is then not the reverse of the
ascending order.  Second, even cells that are pairwise distinct under the
comparator do not suffice when the column mixes numeric and non-numeric
texts: on `"+5"`, `"+x"`, `"3"` the comparator is cyclic (`"+5"` below
`"+x"` and `"+x"` below `"3"` as strings, but `"3"` below `"+5"`
numerically), and the reversal law fails again. -/
theorem sortTable_toggle_counterexample :
    ("1.0" ≠ "1")
    ∧ (sortTable 0 0 ⟨⟨-1, "asc"⟩, [["1.0"], ["1"]], [some "none"]⟩).sortState.dir = "asc"
    ∧ (sortTable 0 0 (sortTable 0 0 ⟨⟨-1, "asc"⟩, [["1.0"], ["1"]],
        [some "none"]⟩)).sortState.dir = "desc"
    ∧ (sortTable 0 0 (sortTable 0 0 ⟨⟨-1, "asc"⟩, [["1.0"], ["1"]], [some "none"]⟩)).rows
        ≠ (sortTable 0 0 ⟨⟨-1, "asc"⟩, [["1.0"], ["1"]], [some "none"]⟩).rows.reverse
    ∧ List.Pairwise (fun r s => cellCompare true (cellText r 0) (cellText s 0) ≠ Ordering.eq)
        [["+5"], ["+x"], ["3"]]
    ∧ (sortTable 0 0 (sortTable 0 0 ⟨⟨-1, "asc"⟩, [["+5"], ["+x"], ["3"]],
          [some "none"]⟩)).rows
        ≠ (sortTable 0 0 ⟨⟨-1, "asc"⟩, [["+5"], ["+x"], ["3"]], [some "none"]⟩).rows.reverse := by
  decide

/-- Claim C7 (amended): clicking the active column flips the direction and
clicking a new column activates it ascending; and for a column whose cell
values are pairwise distinct under the comparator and uniformly comparable
— every cell parses as a number, or no cell does — sorting a fresh column
and clicking it again yields a direction of descending (ascending again on
a third click) and a row order that is exactly the reverse of the
ascending result.  (Uniformity is necessary: a column mixing numeric and
non-numeric texts can make the comparator cyclic even with pairwise
distinct cells, and the reversal law fails — see the counterexample.) -/
theorem sortTable_direction_and_reverse (st : TableState) (c th : Nat) :
    (st.sortState.col = (c : Int) →
        (sortTable c th st).sortState.col = st.sortState.col
        ∧ (sortTable c th st).sortState.dir
            = (if st.sortState.dir = "asc" then "desc" else "asc"))
    ∧ (st.sortState.col ≠ (c : Int) →
        (sortTable c th st).sortState.col = (c : Int)
        ∧ (sortTable c th st).sortState.dir = "asc")
    ∧ (st.sortState.col ≠ (c : Int) →
       st.rows.Pairwise (fun r s =>
         cellCompare true (cellText r c) (cellText s c) ≠ Ordering.eq) →
       ((∀ r ∈ st.rows, (parseFloat (cellText r c)).isSome = true)
         ∨ (∀ r ∈ st.rows, parseFloat (cellText r c) = none)) →
        ((sortTable c th (sortTable c th st)).sortState.dir = "desc"
         ∧ (sortTable c th (sortTable c th (sortTable c th st))).sortState.dir = "asc"
         ∧ (sortTable c th (sortTable c th st)).rows
             = (sortTable c th st).rows.reverse)) := by
  refine ⟨?_, ?_, ?_⟩
  · intro hcol
    constructor <;> simp [sortTable, hcol]
  · intro hcol
    constructor <;> simp [sortTable, hcol]
  · intro hcol hdist huniform
    have hAs : (sortTable c th st).sortState = ⟨(c : Int), "asc"⟩ := by
      simp [sortTable, hcol]
    have hArows : (sortTable c th st).rows
        = sortBy (fun rA rB => cellCompare true (cellText rA c) (cellText rB c)) st.rows := by
      simp [sortTable, hcol]
    set A := sortTable c th st with hA
    have hBs : (sortTable c th A).sortState = ⟨(c : Int), "desc"⟩ := by
      simp [sortTable, hAs]
    have hBrows : (sortTable c th A).rows
        = sortBy (fun rA rB => cellCompare false (cellText rA c) (cellText rB c)) A.rows := by
      simp [sortTable, hAs]
    set B := sortTable c th A with hB
    have hCs : (sortTable c th B).sortState.dir = "asc" := by
      simp [sortTable, hBs]
    refine ⟨by simp [hBs], hCs, ?_⟩
    rw [hBrows, hArows]
    rcases huniform with hnum | htext
    · -- every cell parses: the comparator is the numeric one on this column
      set g : List String → DecNum := fun r => (parseFloat (cellText r c)).getD ⟨0, 0⟩
        with hgdef
      have hg : ∀ r ∈ st.rows, parseFloat (cellText r c) = some (g r) := by
        intro r hr
        have hs := hnum r hr
        cases ho : parseFloat (cellText r c) with
        | none => rw [ho] at hs; simp at hs
        | some a => simp [hgdef, ho]
      have hcmpT : ∀ x ∈ st.rows, ∀ y ∈ st.rows,
          cellCompare true (cellText x c) (cellText y c) = cmpDec (g x) (g y) := by
        intro x hx y hy
        simp [cellCompare, hg x hx, hg y hy]
      have hcmpF : ∀ x ∈ st.rows, ∀ y ∈ st.rows,
          cellCompare false (cellText x c) (cellText y c) = cmpDec (g y) (g x) := by
        intro x hx y hy
        simp [cellCompare, hg x hx, hg y hy]
      rw [sortBy_congr st.rows hcmpT]
      have hmem : ∀ r ∈ sortBy (fun x y => cmpDec (g x) (g y)) st.rows, r ∈ st.rows := by
        intro r hr
        exact (sortBy_perm _ st.rows).mem_iff.mp hr
      rw [sortBy_congr (sortBy (fun x y => cmpDec (g x) (g y)) st.rows)
        (fun x hx y hy => hcmpF x (hmem x hx) y (hmem y hy))]
      refine sortBy_flip_eq_reverse (fun x y => cmpDec (g x) (g y)) ?_ ?_ st.rows ?_
      · intro x y
        dsimp only
        rw [cmpDec_eq_cmpRat, cmpDec_eq_cmpRat, cmpRat_gt_iff, cmpRat_lt_iff]
      · intro x y z h1 h2
        dsimp only at h1 h2 ⊢
        rw [cmpDec_eq_cmpRat, cmpRat_ne_gt_iff] at h1 h2 ⊢
        exact le_trans h1 h2
      · refine hdist.imp_of_mem ?_
        intro a b ha hb h
        rw [hcmpT a ha b hb] at h
        exact h
    · -- no cell parses: the comparator is the string one on this column
      have hcmpT : ∀ x ∈ st.rows, ∀ y ∈ st.rows,
          cellCompare true (cellText x c) (cellText y c)
            = cmpCharList (cellText x c).data (cellText y c).data := by
        intro x hx y hy
        simp [cellCompare, htext x hx, htext y hy]
      have hcmpF : ∀ x ∈ st.rows, ∀ y ∈ st.rows,
          cellCompare false (cellText x c) (cellText y c)
            = cmpCharList (cellText y c).data (cellText x c).data := by
        intro x hx y hy
        simp [cellCompare, htext x hx, htext y hy]
      rw [sortBy_congr st.rows hcmpT]
      have hmem : ∀ r ∈ sortBy
          (fun x y => cmpCharList (cellText x c).data (cellText y c).data) st.rows,
          r ∈ st.rows := by
        intro r hr
        exact (sortBy_perm _ st.rows).mem_iff.mp hr
      rw [sortBy_congr
        (sortBy (fun x y => cmpCharList (cellText x c).data (cellText y c).data) st.rows)
        (fun x hx y hy => hcmpF x (hmem x hx) y (hmem y hy))]
      refine sortBy_flip_eq_reverse
        (fun x y => cmpCharList (cellText x c).data (cellText y c).data) ?_ ?_ st.rows ?_
      · intro x y
        exact cmpCharList_swap (cellText x c).data (cellText y c).data
      · intro x y z h1 h2
        exact cmpCharList_le_trans (cellText x c).data (cellText y c).data
          (cellText z c).data h1 h2
      · refine hdist.imp_of_mem ?_
        intro a b ha hb h
        rw [hcmpT a ha b hb] at h
        exact h

/-- Witness for C7 (amended) on the numeric column `3, 10, 2` of the
specification example and on an all-text column. -/
theorem sortTable_direction_and_reverse_witness :
    ((sortTable 0 0 (sortTable 0 0 ⟨⟨-1, "asc"⟩, [["3"], ["10"], ["2"]],
        [some "none"]⟩)).rows
      = (sortTable 0 0 ⟨⟨-1, "asc"⟩, [["3"], ["10"], ["2"]], [some "none"]⟩).rows.reverse)
    ∧ ((sortTable 0 0 (sortTable 0 0 ⟨⟨-1, "asc"⟩, [["banana"], ["apple"], ["cherry"]],
        [some "none"]⟩)).rows
      = (sortTable 0 0 ⟨⟨-1, "asc"⟩, [["banana"], ["apple"], ["cherry"]],
          [some "none"]⟩).rows.reverse) :=
  ⟨((sortTable_direction_and_reverse ⟨⟨-1, "asc"⟩, [["3"], ["10"], ["2"]], [some "none"]⟩
      0 0).2.2 (by decide) (by decide) (Or.inl (by decide))).2.2,
   ((sortTable_direction_and_reverse ⟨⟨-1, "asc"⟩, [["banana"], ["apple"], ["cherry"]],
      [some "none"]⟩ 0 0).2.2 (by decide) (by decide) (Or.inr (by decide))).2.2⟩

theorem modal_invoker_invariant (content : List DomNode) (st : ModalState)
    (h : ModalReachable content st) :
    st.openInvoker = none ∨ st.openInvoker = some FocusTarget.openBtn := by
  induction h with
  | init => left; rfl
  | step st ev hst ih =>
    cases ev with
    | click t =>
      cases t with
      | openBtn => right; rfl
      | closeBtn => simpa [modalStep, closeModal] using ih
      | overlay => simpa [modalStep, closeModal] using ih
      | inner n => simpa [modalStep] using ih
    | keydown k s =>
      by_cases hb : st.keydownBound
      · have hpres : ((handleModalKeydown content k s st).1).openInvoker = st.openInvoker := by
          unfold handleModalKeydown
          repeat' split
          all_goals dsimp only
          all_goals first | rfl | simp [closeModal] | (split <;> rfl)
        simpa [modalStep, hb, hpres] using ih
      · simpa [modalStep, hb] using ih

/-- Claim C3: in every reachable state, each of the three close routes
(Escape while the interceptor is bound, a click on the close control, a
click whose target is the overlay backdrop) restores keyboard focus to the
element that invoked `open` for the currently open dialog, removes the
inert attribute from all three background landmark regions, and unbinds
the keyboard interceptor. -/
theorem closeModal_restores_invoker (content : List DomNode) (st : ModalState)
    (tr : FocusTarget) (hreach : ModalReachable content st)
    (hinv : st.openInvoker = some tr) :
    (st.keydownBound = true →
       ((modalStep content st (MEvent.keydown "Escape" false)).focused = tr
        ∧ (modalStep content st (MEvent.keydown "Escape" false)).headerInert = false
        ∧ (modalStep content st (MEvent.keydown "Escape" false)).mainInert = false
        ∧ (modalStep content st (MEvent.keydown "Escape" false)).footerInert = false
        ∧ (modalStep content st (MEvent.keydown "Escape" false)).keydownBound = false))
    ∧ ((modalStep content st (MEvent.click ClickTarget.closeBtn)).focused = tr
        ∧ (modalStep content st (MEvent.click ClickTarget.closeBtn)).headerInert = false
        ∧ (modalStep content st (MEvent.click ClickTarget.closeBtn)).mainInert = false
        ∧ (modalStep content st (MEvent.click ClickTarget.closeBtn)).footerInert = false
        ∧ (modalStep content st (MEvent.click ClickTarget.closeBtn)).keydownBound = false)
    ∧ ((modalStep content st (MEvent.click ClickTarget.overlay)).focused = tr
        ∧ (modalStep content st (MEvent.click ClickTarget.overlay)).headerInert = false
        ∧ (modalStep content st (MEvent.click ClickTarget.overlay)).mainInert = false
        ∧ (modalStep content st (MEvent.click ClickTarget.overlay)).footerInert = false
        ∧ (modalStep content st (MEvent.click ClickTarget.overlay)).keydownBound = false) := by
  have htr : tr = FocusTarget.openBtn := by
    rcases modal_invoker_invariant content st hreach with h | h
    · rw [hinv] at h; simp at h
    · rw [h] at hinv
      exact (Option.some.inj hinv).symm
  subst htr
  refine ⟨?_, ?_, ?_⟩
  · intro hb
    simp [modalStep, hb, handleModalKeydown, closeModal]
  · simp [modalStep, closeModal]
  · simp [modalStep, closeModal]

/-- Witness for C3: open the modal by clicking the open button from the
initial page state, then close it with the close control; focus lands back
on the open button, which is exactly the recorded invoker. -/
theorem closeModal_restores_invoker_witness :
    ((modalStep [] modalInit (MEvent.click ClickTarget.openBtn)).keydownBound = true)
    ∧ ((modalStep [] modalInit (MEvent.click ClickTarget.openBtn)).openInvoker
        = some FocusTarget.openBtn)
    ∧ ((modalStep [] (modalStep [] modalInit (MEvent.click ClickTarget.openBtn))
          (MEvent.click ClickTarget.closeBtn)).focused = FocusTarget.openBtn) :=
  ⟨by decide, by decide,
    ((closeModal_restores_invoker [] (modalStep [] modalInit (MEvent.click ClickTarget.openBtn))
        FocusTarget.openBtn
        (ModalReachable.step modalInit (MEvent.click ClickTarget.openBtn) ModalReachable.init)
        (by decide)).2.1).1⟩

/-- Claim C6: while the dialog is open, Tab on the last element of the
recomputed focus cycle suppresses the default and moves focus to the first
element; Shift+Tab on the first element suppresses the default and moves
focus to the last; Tab or Shift+Tab with an empty cycle suppresses the
default and leaves focus where it is (on the dialog container, where
`openModal` put it); every other non-Escape key passes through with no
state change and no default suppression. -/
theorem handleModalKeydown_trap (content : List DomNode) (st : ModalState) :
    (∀ fe rest, getFocusableElements content = fe :: rest →
       st.focused = FocusTarget.el ((fe :: rest).getLast (List.cons_ne_nil fe rest)).id →
       handleModalKeydown content "Tab" false st
         = ({ st with focused := FocusTarget.el fe.id }, true))
    ∧ (∀ fe rest, getFocusableElements content = fe :: rest →
       st.focused = FocusTarget.el fe.id →
       handleModalKeydown content "Tab" true st
         = ({ st with
              focused := FocusTarget.el ((fe :: rest).getLast (List.cons_ne_nil fe rest)).id },
            true))
    ∧ (∀ sh : Bool, getFocusableElements content = [] →
       handleModalKeydown content "Tab" sh st = (st, true))
    ∧ (∀ (key : String) (sh : Bool), key ≠ "Escape" → key ≠ "Tab" →
       handleModalKeydown content key sh st = (st, false)) := by
  refine ⟨?_, ?_, ?_, ?_⟩
  · intro fe rest hc hfoc
    simp [handleModalKeydown, hc, hfoc]
  · intro fe rest hc hfoc
    simp [handleModalKeydown, hc, hfoc]
  · intro sh hc
    simp [handleModalKeydown, hc]
  · intro key sh h1 h2
    simp [handleModalKeydown, h1, h2]

/-- Witness for C6: a dialog holding two enabled buttons; Tab on the last
wraps focus to the first with the default suppressed. -/
theorem handleModalKeydown_trap_witness :
    getFocusableElements
        [⟨1, "button", false, false, none, false, false⟩,
         ⟨2, "button", false, false, none, false, false⟩]
      = [⟨1, "button", false, false, none, false, false⟩,
         ⟨2, "button", false, false, none, false, false⟩]
    ∧ handleModalKeydown
        [⟨1, "button", false, false, none, false, false⟩,
         ⟨2, "button", false, false, none, false, false⟩] "Tab" false
        { overlayAriaHidden := "false", overlayIsOpen := true, headerInert := true,
          mainInert := true, footerInert := true, focused := FocusTarget.el 2,
          keydownBound := true, openInvoker := some FocusTarget.openBtn }
      = ({ overlayAriaHidden := "false", overlayIsOpen := true, headerInert := true,
             mainInert := true, footerInert := true, focused := FocusTarget.el 1,
             keydownBound := true, openInvoker := some FocusTarget.openBtn }, true) :=
  ⟨by decide,
    (handleModalKeydown_trap
        [⟨1, "button", false, false, none, false, false⟩,
         ⟨2, "button", false, false, none, false, false⟩]
        { overlayAriaHidden := "false", overlayIsOpen := true, headerInert := true,
          mainInert := true, footerInert := true, focused := FocusTarget.el 2,
          keydownBound := true, openInvoker := some FocusTarget.openBtn }).1
      ⟨1, "button", false, false, none, false, false⟩
      [⟨2, "button", false, false, none, false, false⟩]
      (by decide) (by decide)⟩
